import Mathlib

/-!
# Model of the HeraldStack retrieval scripts

A shallow embedding of the two Python scripts of BryanChasko/HeraldStack:
scripts/ingest_local.py (walk a tree, embed eligible files through a local
HTTP embedding service, persist a flat L2 index plus a parallel metadata
list) and scripts/ask_local.py (embed a question, retrieve the 3 nearest
rows, re-read their files, and ask a local chat service).

Modelling conventions:
* Embedding vectors are sequences of numbers taken from the JSON responses;
  their float32 components are abstracted as rationals (no claim below
  depends on float rounding).
* Decoded file text is a Lean String; Python slicing s[:n] on a decoded
  string takes the first n code points, modelled by strTake.
* The HTTP exchanges are modelled by their observable outcomes: a timeout,
  another transport error, or a response with a status code and a parsed
  JSON body (none standing for a body that fails to parse).
* Exceptions that escape a script are modelled with Except PyError.
-/

set_option maxRecDepth 8000

/-- An embedding vector: the "embedding" field of a service response
(float32 components abstracted as rationals). -/
abbrev Vec := List ℚ

/-- Python slicing s[:n] on a decoded string: the first n code points. -/
def strTake (s : String) (n : Nat) : String := String.mk (s.data.take n)

/-- Python str.lower(), modelled per code point (the extensions compared
against are ASCII, where the two agree). -/
def strLower (s : String) : String := String.mk (s.data.map Char.toLower)

/-- Parsed JSON body of a response from POST /api/embeddings; the
field "embedding" may be absent. -/
structure EmbedBody where
  embedding : Option Vec
deriving DecidableEq

/-- Observable outcome of one requests.post call to the embeddings
endpoint: a timeout, another transport error (connection failure and the
like), or a response carrying an HTTP status code and a parsed body
(none = the body is not valid JSON, so r.json() raises). -/
inductive EmbedHttp where
  | timeout
  | transportError
  | response (status : Nat) (body : Option EmbedBody)
deriving DecidableEq

/-- Python exception classes that can escape the scripts. -/
inductive PyError where
  | requestException
  | keyError
  | indexError
  | osError
  | jsonDecodeError
deriving DecidableEq

/-- One record of repo.meta.json: {"path": ..., "bytes": ...}. -/
structure DocRecord where
  path : String
  bytes : Nat
deriving DecidableEq

/-- A filesystem entry as yielded by ROOT.rglob("*"): its path, its
pathlib suffix (last extension, dot included, original case), its
stat().st_size in bytes, and the result of read_text(encoding="utf-8",
errors="ignore") — none models an OSError raised by the read (for
example, the entry is a directory); the lossy decode itself never
raises, so a readable entry always yields some decoded text. -/
structure FsEntry where
  path : String
  suffix : String
  size : Nat
  readText : Option String
deriving DecidableEq

/-- The keyword configuration of one requests.post call site: the URL and
the timeout keyword argument (none = the keyword is absent, so the
library default of no timeout applies and the call blocks indefinitely). -/
structure HttpCall where
  url : String
  timeoutSeconds : Option Nat
deriving DecidableEq

namespace IngestLocal

/-- The requests.post call inside ingest_local.embed (lines 20-24):
timeout=600. -/
def embedRequest : HttpCall :=
  { url := "http://127.0.0.1:11434/api/embeddings", timeoutSeconds := some 600 }

/-- ingest_local.embed (lines 18-38). Timeouts and other transport
errors raise RequestException, caught (returns None); raise_for_status
raises HTTPError (a RequestException) on status >= 400, caught; a body
that is not JSON raises on r.json(), caught; a JSON body without an
"embedding" key returns None explicitly; otherwise the vector. -/
def embed (resp : EmbedHttp) : Option Vec :=
  match resp with
  | .timeout => none
  | .transportError => none
  | .response status body =>
    if 400 ≤ status then none
    else
      match body with
      | none => none
      | some b =>
        match b.embedding with
        | none => none
        | some v => some v

/-- The file filter on line 45:
path.suffix.lower() in {".md", ".json"} and path.stat().st_size > 0. -/
def eligible (f : FsEntry) : Bool :=
  (strLower f.suffix == ".md" || strLower f.suffix == ".json") && decide (0 < f.size)

/-- Line 47: chunk = path.read_text(...)[:800]. -/
def chunkOf (text : String) : String := strTake text 800

/-- The mutable loop state of the ingest script: docs, meta, file_count. -/
structure State where
  docs : List Vec
  meta : List DocRecord
  file_count : Nat
deriving DecidableEq

/-- The metadata record appended on line 52. -/
def recordOf (f : FsEntry) : DocRecord := { path := f.path, bytes := f.size }

/-- The body of the ingest loop (lines 44-59) for one rglob entry, given
the embedding service behaviour svc (prompt sent to the endpoint ↦
observable HTTP outcome). An ineligible entry is passed over; a failed
read lands in the except branch (logged, state unchanged); a failed
embedding is logged and skipped; on success the vector and the record are
appended in the same order and the counter advances. -/
def processEntry (svc : String → EmbedHttp) (st : State) (f : FsEntry) : State :=
  if eligible f then
    match f.readText with
    | none => st
    | some text =>
      match embed (svc (chunkOf text)) with
      | some v =>
        { docs := st.docs ++ [v]
          meta := st.meta ++ [recordOf f]
          file_count := st.file_count + 1 }
      | none => st
  else st

/-- The whole ingest loop over the rglob listing, in listing order. -/
def run (svc : String → EmbedHttp) (fs : List FsEntry) : State :=
  fs.foldl (processEntry svc) { docs := [], meta := [], file_count := 0 }

/-- What the tail of the script (lines 61-70) leaves behind: if docs is
nonempty, the index file whose rows are the stacked vectors in order and
the metadata JSON file; otherwise nothing is written and the
"No files ingested" diagnostic is printed. -/
inductive Outcome where
  | written (indexRows : List Vec) (metaJson : List DocRecord)
  | diagnostic
deriving DecidableEq

/-- Lines 61-70. -/
def finish (st : State) : Outcome :=
  if st.docs.isEmpty then .diagnostic
  else .written st.docs st.meta

/-- Derived view: the embedding outcome the loop obtains for one entry
(none when the entry is ineligible, unreadable, or its embedding call
fails). -/
def embedOf (svc : String → EmbedHttp) (f : FsEntry) : Option Vec :=
  if eligible f then f.readText.bind (fun text => embed (svc (chunkOf text)))
  else none

/-- Derived view: the successfully embedded entries, in listing order,
paired with their vectors. -/
def successes (svc : String → EmbedHttp) (fs : List FsEntry) : List (FsEntry × Vec) :=
  fs.filterMap (fun f => (embedOf svc f).map (fun v => (f, v)))

/-- json.dump rendering of one metadata record with the default
separators of the json module. -/
def dumpRecord (r : DocRecord) : String :=
  "\x7b\"path\": \"" ++ r.path ++ "\", \"bytes\": " ++ toString r.bytes ++ "\x7d"

/-- json.dump rendering of the whole metadata list (line 67). -/
def dumpMeta (ms : List DocRecord) : String :=
  "[" ++ String.intercalate ", " (ms.map dumpRecord) ++ "]"

/-- ROOT resolves to the parent of the scripts directory (line 14). -/
def rootDir : String := "HARALD"

/-- DATA = ROOT / "data" (line 15); DATA lies under the scan root. -/
def dataDir : String := rootDir ++ "/data"

/-- Output location of the persisted index (line 65). -/
def indexFilePath : String := dataDir ++ "/repo.index"

/-- Output location of the persisted metadata (line 66). -/
def metaFilePath : String := dataDir ++ "/repo.meta.json"

/-- The repo.meta.json output of a run whose metadata list is ms, as it
appears to a later rglob scan of ROOT: a .json entry whose size is the
byte length of the dumped JSON and whose decoded text is that JSON. -/
def metaFileEntry (ms : List DocRecord) : FsEntry :=
  { path := metaFilePath
    suffix := ".json"
    size := (dumpMeta ms).utf8ByteSize
    readText := some (dumpMeta ms) }

/-- The repo.index output as it appears to a later rglob scan: a .index
entry with some opaque binary payload (lossily decoded if ever read). -/
def indexFileEntry (content : String) : FsEntry :=
  { path := indexFilePath
    suffix := ".index"
    size := content.utf8ByteSize
    readText := some content }

end IngestLocal

namespace AskLocal

/-- The requests.post call inside ask_local.embed (lines 10-12):
timeout=600. -/
def embedRequest : HttpCall :=
  { url := "http://127.0.0.1:11434/api/embeddings", timeoutSeconds := some 600 }

/-- The requests.post call for the chat completion (line 29): no timeout
keyword argument is supplied, so the library default (block with no
timeout) applies. -/
def chatRequest : HttpCall :=
  { url := "http://127.0.0.1:11434/api/chat", timeoutSeconds := none }

/-- ask_local.embed (lines 9-13). There is no try/except and no
raise_for_status: a timeout or another transport error raises
RequestException uncaught; r.json() on an unparsable body raises
uncaught; a parsed body without an "embedding" key raises KeyError on
the subscript, uncaught; the HTTP status code is never inspected, so any
parsed body carrying an "embedding" field yields a vector. -/
def embed (resp : EmbedHttp) : Except PyError Vec :=
  match resp with
  | .timeout => .error .requestException
  | .transportError => .error .requestException
  | .response _status body =>
    match body with
    | none => .error .jsonDecodeError
    | some b =>
      match b.embedding with
      | none => .error .keyError
      | some v => .ok v

/-- Line 15: question = " ".join(sys.argv[1:]) or "List all entity
names." — the joined string when it is truthy (nonempty), the default
literal otherwise. -/
def question (args : List String) : String :=
  let joined := " ".intercalate args
  if joined == "" then "List all entity names." else joined

/-- Squared Euclidean distance, the metric of faiss.IndexFlatL2. -/
def sqDist (u v : Vec) : ℚ := (List.zipWith (fun a b => (a - b) * (a - b)) u v).sum

/-- Comparison of two row positions by distance to the query, ties by
row order; a total preorder used to model the search ranking. -/
def rankLe (rows : List Vec) (q : Vec) (i j : Nat) : Prop :=
  sqDist q (rows.getD i []) < sqDist q (rows.getD j []) ∨
    (sqDist q (rows.getD i []) = sqDist q (rows.getD j []) ∧ i ≤ j)

instance (rows : List Vec) (q : Vec) : DecidableRel (rankLe rows q) := fun i j => by
  unfold rankLe
  infer_instance

/-- Modelled from the spec: the search contract of the external vector
index library (flat L2 index; spec section 4.3 and section 7 describe it
as returning the nearest rows and, when k exceeds the corpus size,
padding the remaining label slots with sentinel indices, which the
library fixes as -1). For one query vector it returns the k row labels
in ascending order of squared L2 distance (ties resolved here by row
order), padded with -1 when fewer than k rows exist. -/
def searchLabels (rows : List Vec) (q : Vec) (k : Nat) : List Int :=
  List.map (fun i => Int.ofNat i)
      (((List.range rows.length).insertionSort (rankLe rows q)).take k)
    ++ List.replicate (k - rows.length) (-1)

/-- Python list subscripting with a (possibly negative) integer, as in
meta[i] on line 20: a negative index wraps once from the end; an index
out of range raises IndexError. -/
def pyGet (xs : List DocRecord) (i : Int) : Except PyError DocRecord :=
  let j : Int := if i < 0 then i + xs.length else i
  if h : 0 ≤ j ∧ j < xs.length then .ok (xs.get ⟨j.toNat, by omega⟩)
  else .error .indexError

/-- Parsed "message" field value of the chat response. -/
structure ChatMessage where
  content : Option String
deriving DecidableEq

/-- Parsed JSON body of the chat response; the "message" field may be
absent. -/
structure ChatBody where
  message : Option ChatMessage
deriving DecidableEq

/-- Observable outcome of the chat requests.post call (line 29): a
transport error (uncaught), or a response whose body parses to JSON or
not (none = .json() raises, uncaught). The status code is never
consulted by the script, so it is not recorded. -/
inductive ChatHttp where
  | transportError
  | response (body : Option ChatBody)
deriving DecidableEq

/-- One message of the chat payload (lines 24-28). -/
structure PayloadMessage where
  role : String
  content : String
deriving DecidableEq

/-- The messages field of the chat payload (lines 24-28): a single user
message whose content is the context, a blank line, and the question. -/
def payloadOf (context q : String) : List PayloadMessage :=
  [{ role := "user", content := context ++ "\n\n" ++ q }]

/-- Everything a query run reads from its environment: the CLI
arguments after the script name, the rows of the loaded index and the
loaded metadata list (lines 6-7), the embedding endpoint behaviour, the
filesystem at query time (path ↦ decoded text; none = OSError on read,
uncaught), and the chat endpoint behaviour per payload message list. -/
structure Input where
  args : List String
  indexRows : List Vec
  meta : List DocRecord
  embedSvc : String → EmbedHttp
  readNow : String → Option String
  chatSvc : List PayloadMessage → ChatHttp

/-- The observable data of a completed query run. -/
structure Result where
  questionText : String
  labels : List Int
  blocks : List String
  context : String
  sentMessages : List PayloadMessage
  printed : String
deriving DecidableEq

/-- The generator inside "\n\n".join(...) (lines 19-22): for each label
in order, subscript meta, read the current file text, and keep its first
800 code points; any raised exception escapes. -/
def buildBlocks (meta : List DocRecord) (readNow : String → Option String) :
    List Int → Except PyError (List String)
  | [] => .ok []
  | i :: rest => do
    let r ← pyGet meta i
    match readNow r.path with
    | none => .error .osError
    | some text => do
      let tail ← buildBlocks meta readNow rest
      .ok (strTake text 800 :: tail)

/-- The whole query pipeline (lines 15-30): build the question, embed it
(uncaught on failure), search the index with k=3, build the three
context blocks, join them with blank lines, send one user message
holding context, a blank line, and the question, and print the
response's message.content verbatim. -/
def run (inp : Input) : Except PyError Result := do
  let q := question inp.args
  let qv ← embed (inp.embedSvc q)
  let labels := searchLabels inp.indexRows qv 3
  let blocks ← buildBlocks inp.meta inp.readNow labels
  let context := "\n\n".intercalate blocks
  let payload := payloadOf context q
  match inp.chatSvc payload with
  | .transportError => .error .requestException
  | .response none => .error .jsonDecodeError
  | .response (some body) =>
    match body.message with
    | none => .error .keyError
    | some m =>
      match m.content with
      | none => .error .keyError
      | some c =>
        .ok { questionText := q, labels := labels, blocks := blocks,
              context := context,
              sentMessages := payload, printed := c }

end AskLocal

/-- The eligibility condition as the spec words it (section 6, File
filters): extension .md or .json compared case-insensitively, and
strictly positive size; stated over the code points of the suffix. A
definition written from the words of the spec, to be compared with the
code filter IngestLocal.eligible. -/
def eligibleSpec (f : FsEntry) : Prop :=
  (strLower f.suffix = ".md" ∨ strLower f.suffix = ".json") ∧ 0 < f.size

instance : DecidablePred eligibleSpec := fun f => by
  unfold eligibleSpec
  infer_instance

namespace Fixtures

/-- A deterministic embedding service that answers every prompt with the
vector [1]. -/
def okSvc : String → EmbedHttp := fun _ => .response 200 (some { embedding := some [1] })

/-- An embedding service on which every request times out. -/
def failSvc : String → EmbedHttp := fun _ => .timeout

/-- A service that reveals whether the prompt it received exceeds 800
UTF-8 bytes: [2] for a longer prompt, [1] otherwise. -/
def probeSvc : String → EmbedHttp := fun p =>
  if 800 < p.utf8ByteSize then .response 200 (some { embedding := some [2] })
  else .response 200 (some { embedding := some [1] })

/-- A service that embeds the prompt "\x7b\x7d" (the text of bJson) to
[1] and times out on every other prompt. -/
def selSvc : String → EmbedHttp := fun p =>
  if p == "\x7b\x7d" then .response 200 (some { embedding := some [1] }) else .timeout

/-- A small markdown file. -/
def aMd : FsEntry := { path := "HARALD/a.md", suffix := ".md", size := 5, readText := some "hello" }

/-- The metadata record of aMd. -/
def aRec : DocRecord := { path := "HARALD/a.md", bytes := 5 }

/-- The spec scenario files of section 8: a.md of 500 bytes, b.json of
10 bytes, c.txt of 500 bytes. -/
def aMd500 : FsEntry := { path := "HARALD/a.md", suffix := ".md", size := 500, readText := some "alpha" }

def bJson : FsEntry := { path := "HARALD/b.json", suffix := ".json", size := 10, readText := some "\x7b\x7d" }

def cTxt : FsEntry := { path := "HARALD/c.txt", suffix := ".txt", size := 500, readText := some "gamma" }

/-- A directory tree holding one eligible file. -/
def tree1 : List FsEntry := [aMd]

/-- The same tree as scanned by a second run after a first successful
run over tree1: unchanged except for the two outputs that the first run
itself wrote under ROOT/data, which rglob now also yields. -/
def tree2 : List FsEntry :=
  tree1 ++ [IngestLocal.indexFileEntry "FAISSBIN", IngestLocal.metaFileEntry [aRec]]

/-- 201 four-byte code points: 804 UTF-8 bytes but only 201 characters,
so Python slicing keeps all of them. -/
def bigText : String := String.mk (List.replicate 201 '😀')

/-- A markdown file whose decoded text is bigText. -/
def bigFile : FsEntry := { path := "HARALD/big.md", suffix := ".md", size := 804, readText := some bigText }

/-- A query-run environment over a one-document corpus. -/
def askInput : AskLocal.Input :=
  { args := ["hi"]
    indexRows := [[0]]
    meta := [aRec]
    embedSvc := fun _ => .response 200 (some { embedding := some [0] })
    readNow := fun _ => some "current text"
    chatSvc := fun _ => .response (some { message := some { content := some "ANSWER" } }) }

/-- A query-run environment whose embedding request times out. -/
def abortInput : AskLocal.Input :=
  { args := []
    indexRows := []
    meta := []
    embedSvc := fun _ => .timeout
    readNow := fun _ => none
    chatSvc := fun _ => .transportError }

/-- The result that the query run over askInput produces. -/
def askResult : AskLocal.Result :=
  { questionText := "hi"
    labels := [0, -1, -1]
    blocks := ["current text", "current text", "current text"]
    context := "current text\n\ncurrent text\n\ncurrent text"
    sentMessages := [{ role := "user", content := "current text\n\ncurrent text\n\ncurrent text\n\nhi" }]
    printed := "ANSWER" }

end Fixtures

namespace IngestLocal

theorem processEntry_eq_embedOf (svc : String → EmbedHttp) (st : State) (f : FsEntry) :
    processEntry svc st f =
      match embedOf svc f with
      | some v =>
        { docs := st.docs ++ [v]
          meta := st.meta ++ [recordOf f]
          file_count := st.file_count + 1 }
      | none => st := by
  unfold processEntry embedOf
  cases he : eligible f
  · simp
  · simp only [if_pos rfl, if_true]
    cases f.readText with
    | none => simp
    | some text =>
      simp only [Option.bind_some]
      cases hv : embed (svc (chunkOf text)) <;> simp [hv]

theorem foldl_processEntry (svc : String → EmbedHttp) (fs : List FsEntry) :
    ∀ st : State, fs.foldl (processEntry svc) st =
      { docs := st.docs ++ (successes svc fs).map Prod.snd
        meta := st.meta ++ (successes svc fs).map (fun p => recordOf p.1)
        file_count := st.file_count + (successes svc fs).length } := by
  induction fs with
  | nil => intro st; simp [successes]
  | cons f fs ih =>
    intro st
    rw [List.foldl_cons, processEntry_eq_embedOf, ih]
    unfold successes
    rw [List.filterMap_cons]
    cases h : embedOf svc f <;>
      simp [List.map_cons, List.length_cons, Nat.add_comm, Nat.add_assoc, Nat.add_left_comm]

theorem run_eq (svc : String → EmbedHttp) (fs : List FsEntry) :
    run svc fs =
      { docs := (successes svc fs).map Prod.snd
        meta := (successes svc fs).map (fun p => recordOf p.1)
        file_count := (successes svc fs).length } := by
  unfold run
  rw [foldl_processEntry]
  simp

theorem dumpMeta_utf8ByteSize_pos (ms : List DocRecord) :
    0 < (dumpMeta ms).utf8ByteSize := by
  cases hs : dumpMeta ms with
  | mk cs =>
    rw [String.utf8ByteSize_mk]
    rcases cs with _ | ⟨c, cs⟩
    · exfalso
      have hd : (dumpMeta ms).data = [] := by rw [hs]
      unfold dumpMeta at hd
      simp [String.data_append] at hd
    · rw [String.utf8Len_cons]
      have := Char.utf8Size_pos c
      omega

theorem metaFileEntry_eligible (ms : List DocRecord) :
    eligible (metaFileEntry ms) = true := by
  unfold eligible metaFileEntry
  have h := dumpMeta_utf8ByteSize_pos ms
  simp only [Bool.and_eq_true, Bool.or_eq_true, beq_iff_eq, decide_eq_true_eq]
  exact ⟨Or.inr (by decide), h⟩

theorem indexFileEntry_embedOf (svc : String → EmbedHttp) (content : String) :
    embedOf svc (indexFileEntry content) = none := by
  unfold embedOf eligible indexFileEntry
  have h : (strLower ".index" == ".md" || strLower ".index" == ".json") = false := by decide
  simp [h]

theorem successes_append (svc : String → EmbedHttp) (l1 l2 : List FsEntry) :
    successes svc (l1 ++ l2) = successes svc l1 ++ successes svc l2 :=
  List.filterMap_append l1 l2 _

theorem meta_of_run (svc : String → EmbedHttp) (fs : List FsEntry) :
    (run svc fs).meta = (successes svc fs).map (fun p => recordOf p.1) := by
  rw [run_eq]

theorem finish_written_inv (svc : String → EmbedHttp) (fs : List FsEntry)
    (rows : List Vec) (ms : List DocRecord)
    (h : finish (run svc fs) = .written rows ms) :
    (run svc fs).docs = rows ∧ (run svc fs).meta = ms := by
  unfold finish at h
  by_cases hemp : (run svc fs).docs.isEmpty
  · rw [if_pos hemp] at h
    cases h
  · rw [if_neg hemp] at h
    injection h with h1 h2
    exact ⟨h1, h2⟩

theorem run_skip (svc : String → EmbedHttp) (xs ys : List FsEntry) (f : FsEntry)
    (h : embedOf svc f = none) :
    run svc (xs ++ f :: ys) = run svc (xs ++ ys) := by
  rw [run_eq, run_eq]
  have hs : successes svc (xs ++ f :: ys) = successes svc (xs ++ ys) := by
    rw [show f :: ys = [f] ++ ys from rfl, successes_append, successes_append,
      successes_append]
    have h1 : successes svc [f] = [] := by
      unfold successes
      simp [h]
    rw [h1]
    simp
  rw [hs]

theorem diagnostic_iff (svc : String → EmbedHttp) (fs : List FsEntry) :
    finish (run svc fs) = .diagnostic ↔ ∀ f ∈ fs, embedOf svc f = none := by
  rw [run_eq]
  unfold finish
  constructor
  · intro h f hf
    by_cases hemp : ((successes svc fs).map Prod.snd).isEmpty
    · have hnil : successes svc fs = [] := by
        rcases List.isEmpty_iff.mp hemp with hmap
        exact List.map_eq_nil_iff.mp hmap
      have := List.filterMap_eq_nil_iff.mp hnil f hf
      cases he : embedOf svc f with
      | none => rfl
      | some v => rw [he] at this; cases this
    · rw [if_neg hemp] at h
      cases h
  · intro hall
    have hnil : successes svc fs = [] := by
      unfold successes
      rw [List.filterMap_eq_nil_iff]
      intro f hf
      rw [hall f hf]
      rfl
    rw [hnil]
    rfl

theorem eligible_iff (f : FsEntry) : eligible f = true ↔ eligibleSpec f := by
  unfold eligible eligibleSpec
  simp [Bool.and_eq_true, Bool.or_eq_true]

theorem eligible_eq_decide (f : FsEntry) : eligible f = decide (eligibleSpec f) := by
  by_cases h : eligibleSpec f
  · rw [decide_eq_true h]
    exact (eligible_iff f).mpr h
  · rw [decide_eq_false h]
    cases he : eligible f
    · rfl
    · exact absurd ((eligible_iff f).mp he) h

theorem meta_eq_filter (svc : String → EmbedHttp) (fs : List FsEntry) :
    (run svc fs).meta =
      (fs.filter (fun f => eligible f)).filterMap
        (fun f => (f.readText.bind (fun t => embed (svc (chunkOf t)))).map
          (fun _ => recordOf f)) := by
  have key : ∀ gs : List FsEntry,
      (successes svc gs).map (fun p => recordOf p.1) =
        (gs.filter (fun f => eligible f)).filterMap
          (fun f => (f.readText.bind (fun t => embed (svc (chunkOf t)))).map
            (fun _ => recordOf f)) := by
    intro gs
    induction gs with
    | nil => simp [successes]
    | cons f gs ih =>
      unfold successes at ih ⊢
      rw [List.filterMap_cons, List.filter_cons]
      cases he : eligible f
      · have h0 : embedOf svc f = none := by
          unfold embedOf
          rw [he]
          simp
        simp only [h0, he, Bool.false_eq_true, if_false]
        exact ih
      · have h0 : embedOf svc f = f.readText.bind (fun t => embed (svc (chunkOf t))) := by
          unfold embedOf
          rw [he]
          simp
        rw [h0]
        simp only [if_true]
        rw [List.filterMap_cons]
        cases hv : f.readText.bind (fun t => embed (svc (chunkOf t))) with
        | none => simp only [Option.map_none', hv]; exact ih
        | some v =>
          simp only [Option.map_some', hv, List.map_cons]
          rw [ih]
  rw [run_eq]
  exact key fs

end IngestLocal

namespace AskLocal

theorem length_insertionSort_range (rows : List Vec) (q : Vec) :
    ((List.range rows.length).insertionSort (rankLe rows q)).length = rows.length := by
  rw [(List.perm_insertionSort (rankLe rows q) (List.range rows.length)).length_eq,
    List.length_range]

theorem searchLabels_length (rows : List Vec) (q : Vec) (k : Nat) :
    (searchLabels rows q k).length = k := by
  unfold searchLabels
  rw [List.length_append, List.length_map, List.length_take, List.length_replicate,
    length_insertionSort_range]
  omega

theorem searchLabels_small (rows : List Vec) (q : Vec) (hn : rows.length < 3) :
    searchLabels rows q 3 =
      List.map (fun i => Int.ofNat i) ((List.range rows.length).insertionSort (rankLe rows q))
        ++ List.replicate (3 - rows.length) (-1) := by
  unfold searchLabels
  rw [List.take_of_length_le (by rw [length_insertionSort_range]; omega)]

theorem searchLabels_drop_small (rows : List Vec) (q : Vec) (hn : rows.length < 3) :
    (searchLabels rows q 3).drop rows.length = List.replicate (3 - rows.length) (-1) := by
  rw [searchLabels_small rows q hn]
  rw [List.drop_left' (by rw [List.length_map, length_insertionSort_range])]

theorem pyGet_ok_mem (xs : List DocRecord) (i : Int) (r : DocRecord)
    (h : pyGet xs i = .ok r) : r ∈ xs := by
  simp only [pyGet] at h
  by_cases h0 : (0 : Int) ≤ (if i < 0 then i + xs.length else i) ∧
      (if i < 0 then i + xs.length else i) < xs.length
  · rw [dif_pos h0] at h
    cases h
    exact xs.get_mem _ _
  · rw [dif_neg h0] at h
    exact absurd h (by simp)

theorem pyGet_neg_one (xs : List DocRecord) (r : DocRecord) (h : xs.getLast? = some r) :
    pyGet xs (-1) = .ok r := by
  have hne : xs ≠ [] := by
    intro he
    rw [he] at h
    simp at h
  have hlen : 0 < xs.length := List.length_pos.mpr hne
  simp only [pyGet]
  split
  next =>
    split
    next hcond =>
      congr 1
      have hidx : ((-1 : Int) + xs.length).toNat = xs.length - 1 := by omega
      have hpf2 : ((-1 : Int) + xs.length).toNat < xs.length := by omega
      have h3 : xs[((-1 : Int) + xs.length).toNat]? = some r := by
        rw [hidx, ← List.getLast?_eq_getElem? xs]
        exact h
      rw [List.getElem?_eq_getElem hpf2] at h3
      injection h3
    next hcond =>
      exfalso
      exact hcond ⟨by omega, by omega⟩
  next hneg =>
    exfalso
    exact hneg (by norm_num)

theorem buildBlocks_cons_ok (meta : List DocRecord) (readNow : String → Option String)
    (i : Int) (rest : List Int) (bs : List String)
    (h : buildBlocks meta readNow (i :: rest) = .ok bs) :
    ∃ r txt tail, pyGet meta i = .ok r ∧ readNow r.path = some txt ∧
      buildBlocks meta readNow rest = .ok tail ∧ bs = strTake txt 800 :: tail := by
  unfold buildBlocks at h
  cases hr : pyGet meta i with
  | error e => rw [hr] at h; simp [Bind.bind, Except.bind] at h
  | ok r =>
    rw [hr] at h
    simp only [Bind.bind, Except.bind] at h
    cases ht : readNow r.path with
    | none => rw [ht] at h; cases h
    | some txt =>
      rw [ht] at h
      cases htl : buildBlocks meta readNow rest with
      | error e => rw [htl] at h; cases h
      | ok tail =>
        rw [htl] at h
        cases h
        refine ⟨r, txt, tail, ?_, ?_, ?_, ?_⟩ <;>
          first
          | rfl
          | exact hr
          | exact ht

theorem buildBlocks_length (meta : List DocRecord) (readNow : String → Option String) :
    ∀ (l : List Int) (bs : List String), buildBlocks meta readNow l = .ok bs →
      bs.length = l.length := by
  intro l
  induction l with
  | nil => intro bs h; cases h; rfl
  | cons i rest ih =>
    intro bs h
    obtain ⟨r, txt, tail, _, _, htl, hbs⟩ := buildBlocks_cons_ok meta readNow i rest bs h
    subst hbs
    simp [ih tail htl]

theorem buildBlocks_append (meta : List DocRecord) (readNow : String → Option String) :
    ∀ (l1 l2 : List Int) (bs : List String),
      buildBlocks meta readNow (l1 ++ l2) = .ok bs →
      ∃ b1 b2, buildBlocks meta readNow l1 = .ok b1 ∧
        buildBlocks meta readNow l2 = .ok b2 ∧ bs = b1 ++ b2 := by
  intro l1
  induction l1 with
  | nil => intro l2 bs h; exact ⟨[], bs, rfl, h, rfl⟩
  | cons i rest ih =>
    intro l2 bs h
    rw [List.cons_append] at h
    obtain ⟨r, txt, tail, hr, ht, htl, hbs⟩ := buildBlocks_cons_ok meta readNow i _ bs h
    obtain ⟨b1, b2, h1, h2, htail⟩ := ih l2 tail htl
    refine ⟨strTake txt 800 :: b1, b2, ?_, h2, by simp [hbs, htail]⟩
    unfold buildBlocks
    rw [hr]
    simp only [Bind.bind, Except.bind]
    rw [ht, h1]

theorem buildBlocks_mem (meta : List DocRecord) (readNow : String → Option String) :
    ∀ (l : List Int) (bs : List String), buildBlocks meta readNow l = .ok bs →
      ∀ b ∈ bs, ∃ r txt, r ∈ meta ∧ readNow r.path = some txt ∧ b = strTake txt 800 := by
  intro l
  induction l with
  | nil => intro bs h b hb; cases h; cases hb
  | cons i rest ih =>
    intro bs h b hb
    obtain ⟨r, txt, tail, hr, ht, htl, hbs⟩ := buildBlocks_cons_ok meta readNow i rest bs h
    subst hbs
    rcases List.mem_cons.mp hb with hb | hb
    · exact ⟨r, txt, pyGet_ok_mem meta i r hr, ht, hb⟩
    · exact ih tail htl b hb

theorem buildBlocks_replicate (meta : List DocRecord) (readNow : String → Option String)
    (i : Int) :
    ∀ (m : Nat) (bs : List String),
      buildBlocks meta readNow (List.replicate (m + 1) i) = .ok bs →
      ∃ r txt, pyGet meta i = .ok r ∧ readNow r.path = some txt ∧
        bs = List.replicate (m + 1) (strTake txt 800) := by
  intro m
  induction m with
  | zero =>
    intro bs h
    rw [List.replicate_succ, List.replicate_zero] at h
    obtain ⟨r, txt, tail, hr, ht, htl, hbs⟩ := buildBlocks_cons_ok meta readNow i [] bs h
    cases htl
    exact ⟨r, txt, hr, ht, by simp [hbs]⟩
  | succ m ih =>
    intro bs h
    rw [List.replicate_succ] at h
    obtain ⟨r, txt, tail, hr, ht, htl, hbs⟩ := buildBlocks_cons_ok meta readNow i _ bs h
    obtain ⟨r2, txt2, hr2, ht2, htail⟩ := ih tail htl
    have hre : r = r2 := by
      have h12 := hr.symm.trans hr2
      cases h12
      rfl
    subst hre
    have hte : txt = txt2 := by
      have h12 := ht.symm.trans ht2
      cases h12
      rfl
    subst hte
    exact ⟨r, txt, hr, ht, by simp [hbs, htail, List.replicate_succ]⟩

theorem run_error_of_embed_error (inp : Input) (e : PyError)
    (he : embed (inp.embedSvc (question inp.args)) = .error e) :
    run inp = .error e := by
  simp only [run]
  rw [he]
  rfl

theorem run_ok_inv (inp : Input) (res : Result) (h : run inp = .ok res) :
    res.questionText = question inp.args ∧
    (∃ qv, embed (inp.embedSvc (question inp.args)) = .ok qv ∧
      res.labels = searchLabels inp.indexRows qv 3) ∧
    buildBlocks inp.meta inp.readNow res.labels = .ok res.blocks ∧
    res.context = "\n\n".intercalate res.blocks ∧
    res.sentMessages = payloadOf res.context res.questionText ∧
    (∃ body m, inp.chatSvc res.sentMessages = .response (some body) ∧
      body.message = some m ∧ m.content = some res.printed) := by
  simp only [run] at h
  cases he : embed (inp.embedSvc (question inp.args)) with
  | error e =>
    rw [he] at h
    cases h
  | ok qv =>
    rw [he] at h
    simp only [Bind.bind, Except.bind] at h
    cases hb : buildBlocks inp.meta inp.readNow (searchLabels inp.indexRows qv 3) with
    | error e => rw [hb] at h; cases h
    | ok bs =>
      simp only [hb] at h
      cases hc : inp.chatSvc (payloadOf ("\n\n".intercalate bs) (question inp.args)) with
      | transportError => simp only [hc] at h; cases h
      | response body =>
        simp only [hc] at h
        cases body with
        | none => cases h
        | some b =>
          cases hm : b.message with
          | none => simp only [hm] at h; cases h
          | some m =>
            simp only [hm] at h
            cases hcontent : m.content with
            | none => simp only [hcontent] at h; cases h
            | some c =>
              simp only [hcontent] at h
              cases h
              exact ⟨rfl, ⟨qv, rfl, rfl⟩, hb, rfl, rfl, b, m, hc, hm, hcontent⟩

end AskLocal

/-- C1: for every successful ingest run (the outcome is written, so at
least one file embedded), the persisted index has exactly as many rows as
the persisted metadata list, and for every i the i-th metadata record is
the record (path and byte size) of a scanned entry whose successful
embedding is row i of the index: vectors and records are appended in the
same order and a record is appended only when its embedding succeeded. -/
theorem claim_C1_rows_match_metadata (svc : String → EmbedHttp) (fs : List FsEntry)
    (rows : List Vec) (ms : List DocRecord)
    (h : IngestLocal.finish (IngestLocal.run svc fs) = .written rows ms) :
    rows.length = ms.length ∧
    ∀ i (hi : i < rows.length) (hm : i < ms.length),
      ∃ f, f ∈ fs ∧ IngestLocal.embedOf svc f = some rows[i] ∧
        ms[i] = IngestLocal.recordOf f := by
  obtain ⟨h1, h2⟩ := IngestLocal.finish_written_inv svc fs rows ms h
  have hrun := IngestLocal.run_eq svc fs
  rw [hrun] at h1 h2
  subst h1
  subst h2
  constructor
  · simp
  · intro i hi hm
    have hi' : i < (IngestLocal.successes svc fs).length := by simpa using hi
    have hmem : (IngestLocal.successes svc fs).get ⟨i, hi'⟩ ∈ IngestLocal.successes svc fs :=
      List.get_mem _ i hi'
    obtain ⟨a, ha, hfa⟩ := List.mem_filterMap.mp hmem
    obtain ⟨v, hv, hpair⟩ := Option.map_eq_some'.mp hfa
    refine ⟨a, ha, ?_, ?_⟩
    · rw [hv]
      congr 1
      rw [List.getElem_map]
      rw [show (IngestLocal.successes svc fs)[i] =
        (IngestLocal.successes svc fs).get ⟨i, hi'⟩ from rfl]
      rw [← hpair]
    · rw [List.getElem_map]
      rw [show (IngestLocal.successes svc fs)[i] =
        (IngestLocal.successes svc fs).get ⟨i, hi'⟩ from rfl]
      rw [← hpair]

theorem claim_C1_witness :
    IngestLocal.finish (IngestLocal.run Fixtures.okSvc Fixtures.tree1) =
        .written [[1]] [Fixtures.aRec] ∧
    (([[1]] : List Vec).length = [Fixtures.aRec].length ∧
      ∀ i (hi : i < ([[1]] : List Vec).length) (hm : i < [Fixtures.aRec].length),
        ∃ f, f ∈ Fixtures.tree1 ∧
          IngestLocal.embedOf Fixtures.okSvc f = some ([[1]] : List Vec)[i] ∧
          [Fixtures.aRec][i] = IngestLocal.recordOf f) :=
  ⟨by decide,
    claim_C1_rows_match_metadata Fixtures.okSvc Fixtures.tree1 [[1]] [Fixtures.aRec] (by decide)⟩

/-- C2 counterexample: a concrete tree with one markdown file and a
deterministic embedding service. The first run writes the two output
files under ROOT/data; the tree is then left unchanged, yet the second
run, scanning that unchanged tree, yields a different (larger) metadata
row count than the first, because the first run's own repo.meta.json is
an eligible positive-size .json file. -/
theorem claim_C2_counterexample :
    Fixtures.tree2 = Fixtures.tree1 ++
      [IngestLocal.indexFileEntry "FAISSBIN", IngestLocal.metaFileEntry [Fixtures.aRec]] ∧
    IngestLocal.finish (IngestLocal.run Fixtures.okSvc Fixtures.tree1) =
      .written [[1]] [Fixtures.aRec] ∧
    (IngestLocal.run Fixtures.okSvc Fixtures.tree2).meta.length ≠
      (IngestLocal.run Fixtures.okSvc Fixtures.tree1).meta.length :=
  ⟨rfl, by decide, by decide⟩

/-- C2 (amended): ingest is a deterministic function of the scanned
listing and the service behaviour, but after a successful first run the
unchanged tree contains the run's own outputs: repo.index (suffix
.index) is filtered out, while repo.meta.json is an eligible
positive-size .json file, so whenever its embedding succeeds the second
run's metadata equals the first run's metadata extended by exactly the
metadata file's own record — one more row, and the path ordering of the
first run followed by the metadata file's path. -/
theorem claim_C2_amended_rerun (svc : String → EmbedHttp) (fs : List FsEntry)
    (rows : List Vec) (ms : List DocRecord) (content : String) (v : Vec)
    (h : IngestLocal.finish (IngestLocal.run svc fs) = .written rows ms)
    (hembed : IngestLocal.embed (svc (IngestLocal.chunkOf (IngestLocal.dumpMeta ms))) = some v) :
    (IngestLocal.run svc
        (fs ++ [IngestLocal.indexFileEntry content, IngestLocal.metaFileEntry ms])).meta =
      ms ++ [IngestLocal.recordOf (IngestLocal.metaFileEntry ms)] ∧
    (IngestLocal.run svc
        (fs ++ [IngestLocal.indexFileEntry content, IngestLocal.metaFileEntry ms])).meta.length =
      ms.length + 1 := by
  obtain ⟨h1, h2⟩ := IngestLocal.finish_written_inv svc fs rows ms h
  rw [IngestLocal.meta_of_run] at h2
  have hidx : IngestLocal.embedOf svc (IngestLocal.indexFileEntry content) = none :=
    IngestLocal.indexFileEntry_embedOf svc content
  have hmeta : IngestLocal.embedOf svc (IngestLocal.metaFileEntry ms) = some v := by
    unfold IngestLocal.embedOf
    rw [IngestLocal.metaFileEntry_eligible ms]
    simp only [if_true]
    exact hembed
  have hs2 : IngestLocal.successes svc
      [IngestLocal.indexFileEntry content, IngestLocal.metaFileEntry ms] =
      [(IngestLocal.metaFileEntry ms, v)] := by
    unfold IngestLocal.successes
    simp [hidx, hmeta]
  have hgoal : (IngestLocal.run svc
      (fs ++ [IngestLocal.indexFileEntry content, IngestLocal.metaFileEntry ms])).meta =
      ms ++ [IngestLocal.recordOf (IngestLocal.metaFileEntry ms)] := by
    rw [IngestLocal.meta_of_run, IngestLocal.successes_append, List.map_append, h2, hs2]
    rfl
  refine ⟨hgoal, ?_⟩
  rw [hgoal]
  simp

theorem claim_C2_witness :
    IngestLocal.finish (IngestLocal.run Fixtures.okSvc Fixtures.tree1) =
        .written [[1]] [Fixtures.aRec] ∧
    IngestLocal.embed (Fixtures.okSvc
        (IngestLocal.chunkOf (IngestLocal.dumpMeta [Fixtures.aRec]))) = some [1] ∧
    ((IngestLocal.run Fixtures.okSvc (Fixtures.tree1 ++
        [IngestLocal.indexFileEntry "FAISSBIN", IngestLocal.metaFileEntry [Fixtures.aRec]])).meta =
      [Fixtures.aRec] ++ [IngestLocal.recordOf (IngestLocal.metaFileEntry [Fixtures.aRec])] ∧
     (IngestLocal.run Fixtures.okSvc (Fixtures.tree1 ++
        [IngestLocal.indexFileEntry "FAISSBIN", IngestLocal.metaFileEntry [Fixtures.aRec]])).meta.length =
      [Fixtures.aRec].length + 1) :=
  ⟨by decide, by decide,
    claim_C2_amended_rerun Fixtures.okSvc Fixtures.tree1 [[1]] [Fixtures.aRec] "FAISSBIN" [1]
      (by decide) (by decide)⟩

/-- C7: ingest errors are per-file and non-fatal: an entry whose
processing fails (unreadable, or its embedding call fails) leaves the
run's result exactly as if the entry were absent, so ingestion of the
remaining files continues; and the run writes no output files, emitting
the diagnostic instead, exactly when no entry at all embeds
successfully. -/
theorem claim_C7_per_file_failures :
    (∀ (svc : String → EmbedHttp) (xs ys : List FsEntry) (f : FsEntry),
        IngestLocal.embedOf svc f = none →
        IngestLocal.run svc (xs ++ f :: ys) = IngestLocal.run svc (xs ++ ys)) ∧
    (∀ (svc : String → EmbedHttp) (fs : List FsEntry),
        IngestLocal.finish (IngestLocal.run svc fs) = .diagnostic ↔
          ∀ f ∈ fs, IngestLocal.embedOf svc f = none) :=
  ⟨fun svc xs ys f h => IngestLocal.run_skip svc xs ys f h,
   fun svc fs => IngestLocal.diagnostic_iff svc fs⟩

theorem claim_C7_witness :
    IngestLocal.embedOf Fixtures.selSvc Fixtures.aMd = none ∧
    IngestLocal.run Fixtures.selSvc ([Fixtures.bJson] ++ Fixtures.aMd :: []) =
      IngestLocal.run Fixtures.selSvc ([Fixtures.bJson] ++ []) ∧
    (IngestLocal.finish (IngestLocal.run Fixtures.failSvc Fixtures.tree1) = .diagnostic ↔
      ∀ f ∈ Fixtures.tree1, IngestLocal.embedOf Fixtures.failSvc f = none) :=
  ⟨by decide,
   claim_C7_per_file_failures.1 Fixtures.selSvc [Fixtures.bJson] [] Fixtures.aMd (by decide),
   claim_C7_per_file_failures.2 Fixtures.failSvc Fixtures.tree1⟩

/-- C8: ingest persists a metadata record precisely for the entries that
pass the filter of the spec — extension .md or .json compared
case-insensitively and strictly positive size — and embed successfully;
an entry failing the filter leaves the loop state untouched (it is never
embedded and never produces a record). The spec scenario follows: of
a.md (500 bytes), b.json (10 bytes) and c.txt (500 bytes), exactly the
first two are ingested, in order. -/
theorem claim_C8_filter_exactly :
    (∀ (svc : String → EmbedHttp) (fs : List FsEntry),
      (IngestLocal.run svc fs).meta =
        (fs.filter (fun f => decide (eligibleSpec f))).filterMap
          (fun f => (f.readText.bind (fun t => IngestLocal.embed (svc (IngestLocal.chunkOf t)))).map
            (fun _ => IngestLocal.recordOf f))) ∧
    (∀ (svc : String → EmbedHttp) (st : IngestLocal.State) (f : FsEntry),
      ¬ eligibleSpec f → IngestLocal.processEntry svc st f = st) ∧
    (IngestLocal.run Fixtures.okSvc [Fixtures.aMd500, Fixtures.bJson, Fixtures.cTxt]).meta =
      [IngestLocal.recordOf Fixtures.aMd500, IngestLocal.recordOf Fixtures.bJson] := by
  refine ⟨?_, ?_, by decide⟩
  · intro svc fs
    rw [IngestLocal.meta_eq_filter]
    congr 1
    apply List.filter_congr
    intro a _
    exact IngestLocal.eligible_eq_decide a
  · intro svc st f hf
    unfold IngestLocal.processEntry
    have hfalse : IngestLocal.eligible f = false := by
      cases he : IngestLocal.eligible f
      · rfl
      · exact absurd ((IngestLocal.eligible_iff f).mp he) hf
    rw [hfalse]
    simp

theorem claim_C8_witness :
    ¬ eligibleSpec Fixtures.cTxt ∧
    IngestLocal.processEntry Fixtures.okSvc
        { docs := [], meta := [], file_count := 0 } Fixtures.cTxt =
      { docs := [], meta := [], file_count := 0 } :=
  ⟨by decide,
   claim_C8_filter_exactly.2.1 Fixtures.okSvc
     { docs := [], meta := [], file_count := 0 } Fixtures.cTxt (by decide)⟩

/-- C3 counterexample: the query script's embed never checks the HTTP
status (there is no raise_for_status): a 500 response whose parsed body
still carries an "embedding" field yields a vector, not the failure
signal the claim asserts for every non-success status. -/
theorem claim_C3_counterexample :
    400 ≤ 500 ∧
    AskLocal.embed (.response 500 (some { embedding := some [1] })) = .ok [1] :=
  ⟨by norm_num, rfl⟩

/-- C3 (amended): the ingest embedding client returns a failure signal
(None) on a timeout, any other transport error, a non-success status, an
unparsable body, or a body without the "embedding" field, and the ingest
loop then skips that document (state unchanged); in the query script a
timeout or transport error on the question's embedding, an unparsable
body, or a missing "embedding" field raises an uncaught exception that
aborts the run with no fallback — but the query embed never inspects the
HTTP status, so a non-success response whose body carries an "embedding"
field still yields a vector. -/
theorem claim_C3_amended_failure_signals :
    (∀ resp : EmbedHttp,
      (resp = .timeout ∨ resp = .transportError ∨
        (∃ st body, resp = .response st body ∧ 400 ≤ st) ∨
        (∃ st, resp = .response st none) ∨
        (∃ st b, resp = .response st (some b) ∧ b.embedding = none)) →
      IngestLocal.embed resp = none) ∧
    (∀ (svc : String → EmbedHttp) (st : IngestLocal.State) (f : FsEntry) (text : String),
      f.readText = some text → IngestLocal.embed (svc (IngestLocal.chunkOf text)) = none →
      IngestLocal.processEntry svc st f = st) ∧
    (AskLocal.embed .timeout = .error .requestException ∧
     AskLocal.embed .transportError = .error .requestException ∧
     (∀ st : Nat, AskLocal.embed (.response st none) = .error .jsonDecodeError) ∧
     (∀ (st : Nat) (b : EmbedBody), b.embedding = none →
        AskLocal.embed (.response st (some b)) = .error .keyError)) ∧
    (∀ (inp : AskLocal.Input) (e : PyError),
      AskLocal.embed (inp.embedSvc (AskLocal.question inp.args)) = .error e →
      AskLocal.run inp = .error e) := by
  refine ⟨?_, ?_, ⟨rfl, rfl, fun st => rfl, ?_⟩, ?_⟩
  · intro resp hresp
    rcases hresp with h | h | ⟨st, body, h, hst⟩ | ⟨st, h⟩ | ⟨st, b, h, hb⟩
    · rw [h]; rfl
    · rw [h]; rfl
    · rw [h]; simp only [IngestLocal.embed]; rw [if_pos hst]
    · rw [h]; simp only [IngestLocal.embed]
      by_cases h4 : 400 ≤ st
      · rw [if_pos h4]
      · rw [if_neg h4]
    · rw [h]; simp only [IngestLocal.embed]
      by_cases h4 : 400 ≤ st
      · rw [if_pos h4]
      · rw [if_neg h4]
        simp [hb]
  · intro svc st f text hread hfail
    unfold IngestLocal.processEntry
    cases he : IngestLocal.eligible f
    · simp
    · simp [hread, hfail]
  · intro st b hb
    unfold AskLocal.embed
    simp [hb]
  · intro inp e h
    exact AskLocal.run_error_of_embed_error inp e h

theorem claim_C3_witness :
    IngestLocal.embed .timeout = none ∧
    (Fixtures.aMd.readText = some "hello" ∧
      IngestLocal.embed (Fixtures.selSvc (IngestLocal.chunkOf "hello")) = none ∧
      IngestLocal.processEntry Fixtures.selSvc
          { docs := [], meta := [], file_count := 0 } Fixtures.aMd =
        { docs := [], meta := [], file_count := 0 }) ∧
    AskLocal.embed (.response 500 (some { embedding := none })) = .error .keyError ∧
    (AskLocal.embed (Fixtures.abortInput.embedSvc (AskLocal.question Fixtures.abortInput.args)) =
        .error .requestException ∧
      AskLocal.run Fixtures.abortInput = .error .requestException) :=
  ⟨claim_C3_amended_failure_signals.1 .timeout (Or.inl rfl),
   ⟨rfl, by decide,
    claim_C3_amended_failure_signals.2.1 Fixtures.selSvc
      { docs := [], meta := [], file_count := 0 } Fixtures.aMd "hello" rfl (by decide)⟩,
   claim_C3_amended_failure_signals.2.2.1.2.2.2 500 { embedding := none } rfl,
   ⟨rfl,
    claim_C3_amended_failure_signals.2.2.2 Fixtures.abortInput .requestException rfl⟩⟩

/-- C4 counterexample: Python slicing takes 800 code points, not bytes:
a markdown file of 201 four-byte code points is sliced to all 201
characters (804 UTF-8 bytes), and the ingest loop demonstrably sends the
service a prompt longer than 800 bytes, contradicting the at-most-800-
bytes reading. -/
theorem claim_C4_counterexample :
    800 < (IngestLocal.chunkOf Fixtures.bigText).utf8ByteSize ∧
    (IngestLocal.run Fixtures.probeSvc [Fixtures.bigFile]).docs = [[2]] :=
  ⟨by decide, by decide⟩

/-- C4 (amended): every prompt the ingest loop embeds is the first 800
code points (not bytes) of the file's decoded (lossy-fallback) text —
at most 800 characters, though possibly more than 800 UTF-8 bytes — and
every context block the query builds is the first 800 code points of the
hit file's current text re-read from disk. -/
theorem claim_C4_amended_800_codepoints :
    (∀ text : String, IngestLocal.chunkOf text = strTake text 800 ∧
      (strTake text 800).length ≤ 800) ∧
    (∀ (svc : String → EmbedHttp) (fs : List FsEntry) (p : FsEntry × Vec),
      p ∈ IngestLocal.successes svc fs →
      ∃ text, p.1.readText = some text ∧
        IngestLocal.embed (svc (strTake text 800)) = some p.2) ∧
    (∀ (inp : AskLocal.Input) (res : AskLocal.Result),
      AskLocal.run inp = .ok res →
      ∀ b ∈ res.blocks, b.length ≤ 800 ∧
        ∃ r txt, r ∈ inp.meta ∧ inp.readNow r.path = some txt ∧ b = strTake txt 800) := by
  refine ⟨?_, ?_, ?_⟩
  · intro text
    refine ⟨rfl, ?_⟩
    show (String.mk (text.data.take 800)).length ≤ 800
    have hl : (String.mk (text.data.take 800)).length = (text.data.take 800).length := rfl
    rw [hl]
    exact List.length_take_le 800 text.data
  · intro svc fs p hp
    obtain ⟨a, ha, hfa⟩ := List.mem_filterMap.mp hp
    obtain ⟨v, hv, hpair⟩ := Option.map_eq_some'.mp hfa
    unfold IngestLocal.embedOf at hv
    by_cases he : IngestLocal.eligible a
    · rw [if_pos he] at hv
      cases hread : a.readText with
      | none => rw [hread] at hv; cases hv
      | some text =>
        rw [hread] at hv
        refine ⟨text, ?_, ?_⟩
        · rw [← hpair]; exact hread
        · rw [← hpair]; exact hv
    · rw [if_neg he] at hv
      cases hv
  · intro inp res h b hb
    obtain ⟨_, _, hbuild, _, _, _⟩ := AskLocal.run_ok_inv inp res h
    obtain ⟨r, txt, hr, ht, hbt⟩ :=
      AskLocal.buildBlocks_mem inp.meta inp.readNow res.labels res.blocks hbuild b hb
    refine ⟨?_, r, txt, hr, ht, hbt⟩
    rw [hbt]
    show (String.mk (txt.data.take 800)).length ≤ 800
    have hl : (String.mk (txt.data.take 800)).length = (txt.data.take 800).length := rfl
    rw [hl]
    exact List.length_take_le 800 txt.data

theorem claim_C4_witness :
    (IngestLocal.chunkOf "hello" = strTake "hello" 800 ∧ (strTake "hello" 800).length ≤ 800) ∧
    (∃ text, (Fixtures.aMd, ([1] : Vec)).1.readText = some text ∧
      IngestLocal.embed (Fixtures.okSvc (strTake text 800)) = some (Fixtures.aMd, ([1] : Vec)).2) ∧
    (("current text" : String).length ≤ 800 ∧
      ∃ r txt, r ∈ Fixtures.askInput.meta ∧ Fixtures.askInput.readNow r.path = some txt ∧
        ("current text" : String) = strTake txt 800) :=
  ⟨claim_C4_amended_800_codepoints.1 "hello",
   claim_C4_amended_800_codepoints.2.1 Fixtures.okSvc Fixtures.tree1
     (Fixtures.aMd, [1]) (by decide),
   claim_C4_amended_800_codepoints.2.2 Fixtures.askInput Fixtures.askResult
     (by rfl) "current text" (by decide)⟩

/-- C5 counterexample: the chat completion request is issued with no
timeout keyword at all, so it does not carry the 600-second timeout the
claim asserts for every HTTP request in both scripts. -/
theorem claim_C5_counterexample :
    AskLocal.chatRequest.timeoutSeconds = none ∧
    AskLocal.chatRequest.timeoutSeconds ≠ some 600 :=
  ⟨rfl, by decide⟩

/-- C5 (amended): the two embedding requests are issued with a
600-second timeout, while the chat completion request is issued without
a timeout (library default: block indefinitely, so it cannot raise a
timeout). A timeout on an ingest embedding is caught and the file is
skipped with the run continuing; a timeout on the query's own embedding
raises an uncaught RequestException that terminates the run. -/
theorem claim_C5_amended_timeouts :
    IngestLocal.embedRequest.timeoutSeconds = some 600 ∧
    AskLocal.embedRequest.timeoutSeconds = some 600 ∧
    AskLocal.chatRequest.timeoutSeconds = none ∧
    IngestLocal.embed .timeout = none ∧
    (∀ (svc : String → EmbedHttp) (st : IngestLocal.State) (f : FsEntry) (text : String),
      f.readText = some text → svc (IngestLocal.chunkOf text) = .timeout →
      IngestLocal.processEntry svc st f = st) ∧
    (∀ inp : AskLocal.Input,
      inp.embedSvc (AskLocal.question inp.args) = .timeout →
      AskLocal.run inp = .error .requestException) := by
  refine ⟨rfl, rfl, rfl, rfl, ?_, ?_⟩
  · intro svc st f text hread htime
    unfold IngestLocal.processEntry
    cases he : IngestLocal.eligible f
    · simp
    · simp [hread, htime, IngestLocal.embed]
  · intro inp htime
    apply AskLocal.run_error_of_embed_error
    rw [htime]
    rfl

theorem claim_C5_witness :
    (Fixtures.aMd.readText = some "hello" ∧
      Fixtures.failSvc (IngestLocal.chunkOf "hello") = .timeout ∧
      IngestLocal.processEntry Fixtures.failSvc
          { docs := [], meta := [], file_count := 0 } Fixtures.aMd =
        { docs := [], meta := [], file_count := 0 }) ∧
    (Fixtures.abortInput.embedSvc (AskLocal.question Fixtures.abortInput.args) = .timeout ∧
      AskLocal.run Fixtures.abortInput = .error .requestException) :=
  ⟨⟨rfl, rfl,
    claim_C5_amended_timeouts.2.2.2.2.1 Fixtures.failSvc
      { docs := [], meta := [], file_count := 0 } Fixtures.aMd "hello" rfl rfl⟩,
   ⟨rfl, claim_C5_amended_timeouts.2.2.2.2.2 Fixtures.abortInput rfl⟩⟩

/-- C6: every query run that completes has searched the loaded index
with exactly k = 3 — its label list has length 3, also when the corpus
holds fewer than 3 rows — built one block per label, joined the blocks
with blank lines into one context string, sent a single user message
holding the context, a blank line and the question, and printed the
response's message.content verbatim. -/
theorem claim_C6_query_pipeline (inp : AskLocal.Input) (res : AskLocal.Result)
    (h : AskLocal.run inp = .ok res) :
    res.questionText = AskLocal.question inp.args ∧
    (∃ qv, AskLocal.embed (inp.embedSvc res.questionText) = .ok qv ∧
      res.labels = AskLocal.searchLabels inp.indexRows qv 3) ∧
    res.labels.length = 3 ∧
    res.blocks.length = 3 ∧
    res.context = "\n\n".intercalate res.blocks ∧
    res.sentMessages = AskLocal.payloadOf res.context res.questionText ∧
    (∃ body m, inp.chatSvc res.sentMessages = .response (some body) ∧
      body.message = some m ∧ m.content = some res.printed) := by
  obtain ⟨hq, ⟨qv, hqv, hlabels⟩, hbuild, hctx, hsent, hchat⟩ := AskLocal.run_ok_inv inp res h
  refine ⟨hq, ⟨qv, ?_, hlabels⟩, ?_, ?_, hctx, hsent, hchat⟩
  · rw [hq]; exact hqv
  · rw [hlabels]; exact AskLocal.searchLabels_length _ _ _
  · have hlen := AskLocal.buildBlocks_length inp.meta inp.readNow res.labels res.blocks hbuild
    rw [hlen, hlabels]
    exact AskLocal.searchLabels_length _ _ _

theorem claim_C6_witness :
    AskLocal.run Fixtures.askInput = .ok Fixtures.askResult ∧
    (Fixtures.askResult.questionText = AskLocal.question Fixtures.askInput.args ∧
     (∃ qv, AskLocal.embed (Fixtures.askInput.embedSvc Fixtures.askResult.questionText) = .ok qv ∧
       Fixtures.askResult.labels =
         AskLocal.searchLabels Fixtures.askInput.indexRows qv 3) ∧
     Fixtures.askResult.labels.length = 3 ∧
     Fixtures.askResult.blocks.length = 3 ∧
     Fixtures.askResult.context = "\n\n".intercalate Fixtures.askResult.blocks ∧
     Fixtures.askResult.sentMessages =
       AskLocal.payloadOf Fixtures.askResult.context Fixtures.askResult.questionText ∧
     (∃ body m, Fixtures.askInput.chatSvc Fixtures.askResult.sentMessages =
         .response (some body) ∧
       body.message = some m ∧ m.content = some Fixtures.askResult.printed)) :=
  ⟨by rfl, claim_C6_query_pipeline Fixtures.askInput Fixtures.askResult (by rfl)⟩

/-- C9 counterexample: invoked with a single empty-string trailing
argument (a nonempty argument list), the joined string is empty and
falsy, so the script uses the default literal instead of the joined
arguments the claim prescribes for every nonempty argument list. -/
theorem claim_C9_counterexample :
    AskLocal.question [""] = "List all entity names." ∧
    " ".intercalate [""] = "" ∧
    AskLocal.question [""] ≠ " ".intercalate [""] :=
  ⟨rfl, rfl, by decide⟩

/-- C9 (amended): with no arguments the question is the default literal
"List all entity names."; otherwise it is the trailing arguments joined
by single spaces, except that when that joined string is empty (as with
a single empty argument) the Python or-idiom falls back to the default
literal. -/
theorem claim_C9_amended_question (args : List String) :
    AskLocal.question [] = "List all entity names." ∧
    (" ".intercalate args ≠ "" → AskLocal.question args = " ".intercalate args) ∧
    (" ".intercalate args = "" → AskLocal.question args = "List all entity names.") := by
  refine ⟨rfl, ?_, ?_⟩
  · intro h
    have hbeq : (" ".intercalate args == "") = false := by
      rw [beq_eq_false_iff_ne]
      exact h
    simp only [AskLocal.question]
    rw [hbeq]
    rfl
  · intro h
    simp only [AskLocal.question]
    rw [h]
    rfl

theorem claim_C9_witness :
    AskLocal.question [] = "List all entity names." ∧
    (" ".intercalate ["a", "b"] ≠ "" ∧
      AskLocal.question ["a", "b"] = " ".intercalate ["a", "b"]) ∧
    (" ".intercalate [""] = "" ∧ AskLocal.question [""] = "List all entity names.") :=
  ⟨(claim_C9_amended_question []).1,
   ⟨by decide, (claim_C9_amended_question ["a", "b"]).2.1 (by decide)⟩,
   ⟨rfl, (claim_C9_amended_question [""]).2.2 rfl⟩⟩

/-- C10: for every completed query run over a persisted corpus of n
documents with 0 < n < 3, the search still returns 3 label slots whose
missing entries carry the sentinel -1; the context loop subscripts the
metadata list with -1, which Python resolves to the last record, so the
run silently re-reads the last ingested document's current file text for
each missing slot instead of raising an error or skipping the slot. -/
theorem claim_C10_sentinel_reads_last (inp : AskLocal.Input) (res : AskLocal.Result) (n : Nat)
    (hrows : inp.indexRows.length = n) (hmeta : inp.meta.length = n)
    (h1 : 0 < n) (h3 : n < 3)
    (hrun : AskLocal.run inp = .ok res) :
    res.labels.drop n = List.replicate (3 - n) (-1) ∧
    ∃ r txt, inp.meta.getLast? = some r ∧
      AskLocal.pyGet inp.meta (-1) = .ok r ∧
      inp.readNow r.path = some txt ∧
      res.blocks.drop n = List.replicate (3 - n) (strTake txt 800) := by
  obtain ⟨_, ⟨qv, _, hlabels⟩, hbuild, _, _, _⟩ := AskLocal.run_ok_inv inp res hrun
  have hsmall : inp.indexRows.length < 3 := by omega
  have hdrop : res.labels.drop n = List.replicate (3 - n) (-1) := by
    rw [hlabels, ← hrows]
    have := AskLocal.searchLabels_drop_small inp.indexRows qv hsmall
    rw [this, hrows]
  refine ⟨hdrop, ?_⟩
  rw [hlabels, AskLocal.searchLabels_small inp.indexRows qv hsmall] at hbuild
  obtain ⟨b1, b2, hb1, hb2, hbs⟩ :=
    AskLocal.buildBlocks_append inp.meta inp.readNow _ _ res.blocks hbuild
  have hlen1 : b1.length = n := by
    have := AskLocal.buildBlocks_length inp.meta inp.readNow _ b1 hb1
    rw [this, List.length_map, AskLocal.length_insertionSort_range, hrows]
  rw [show 3 - inp.indexRows.length = (3 - n - 1) + 1 from by omega] at hb2
  obtain ⟨r, txt, hr, ht, hb2eq⟩ :=
    AskLocal.buildBlocks_replicate inp.meta inp.readNow (-1) (3 - n - 1) b2 hb2
  have hne : inp.meta ≠ [] := by
    intro h0
    rw [h0] at hmeta
    simp at hmeta
    omega
  obtain ⟨r0, hr0⟩ : ∃ r0, inp.meta.getLast? = some r0 := by
    cases hl : inp.meta.getLast? with
    | none => exact absurd (List.getLast?_eq_none_iff.mp hl) hne
    | some r0 => exact ⟨r0, rfl⟩
  have hpg := AskLocal.pyGet_neg_one inp.meta r0 hr0
  have hrr : r = r0 := by
    have h12 := hr.symm.trans hpg
    cases h12
    rfl
  subst hrr
  refine ⟨r, txt, hr0, hpg, ht, ?_⟩
  rw [hbs, List.drop_left' hlen1, hb2eq]
  congr 1
  omega

theorem claim_C10_witness :
    Fixtures.askInput.indexRows.length = 1 ∧
    Fixtures.askInput.meta.length = 1 ∧
    (0 : Nat) < 1 ∧ (1 : Nat) < 3 ∧
    AskLocal.run Fixtures.askInput = .ok Fixtures.askResult ∧
    (Fixtures.askResult.labels.drop 1 = List.replicate (3 - 1) (-1) ∧
     ∃ r txt, Fixtures.askInput.meta.getLast? = some r ∧
       AskLocal.pyGet Fixtures.askInput.meta (-1) = .ok r ∧
       Fixtures.askInput.readNow r.path = some txt ∧
       Fixtures.askResult.blocks.drop 1 = List.replicate (3 - 1) (strTake txt 800)) :=
  ⟨rfl, rfl, by decide, by decide, by rfl,
   claim_C10_sentinel_reads_last Fixtures.askInput Fixtures.askResult 1
     rfl rfl (by decide) (by decide) (by rfl)⟩
